import Mathlib

/-!
Verification of the peer-scoped persistent rate limiter (whisper).

This file gives a shallow embedding of the repository's code:

* namespace `Ratelimiter` embeds `ratelimiter/peer.go`: the mode constants,
  the identity extractors `byIP` / `byID`, `selectFunc`, the
  `PeerRateLimiter` adapter and the `ForWhisper` direction wrapper,
  together with a model (from the specification) of the token-bucket
  engine and the identity-keyed rate-limiter facade, whose source is not
  part of the provided files.
* namespace `Libp2p` embeds the transport adapter: `connection`
  (`IsFlaky`, `Update`), `PubKeyToNodeID` and `Handle`.

Go byte slices and strings are modelled as `List Nat` (one entry per
byte); machine integers are modelled as `Nat`/`Int`; wall-clock time is
an explicit `Nat` parameter (Go reads it implicitly via `time.Now`);
fallible operations return `Except`/`Option`.
-/

namespace Ratelimiter

/-- Go byte slices (`[]byte`) and strings, one `Nat` per byte. -/
abbrev Bytes := List Nat

/-- Go `strings.Split(s, sep)` for a one-byte separator `sep`:
splits `s` at every occurrence of `sep`, keeping empty fragments,
and always returns at least one fragment. -/
def splitByte (sep : Nat) : List Nat → List (List Nat)
  | [] => [[]]
  | c :: rest =>
    match splitByte sep rest with
    | [] => [[c]]
    | h :: t => if c = sep then [] :: h :: t else (c :: h) :: t

/-- ASCII decimal digit test for a byte. -/
def isDigitByte (c : Nat) : Bool := decide (48 ≤ c ∧ c ≤ 57)

/-- One decimal octet of a dotted-quad IPv4 address (Go `net` library
behaviour): one to three ASCII digits with value at most 255. -/
def parseOctet (part : List Nat) : Option Nat :=
  if part.length = 0 ∨ 3 < part.length ∨ ¬ part.all isDigitByte = true then none
  else
    let v := part.foldl (fun acc c => acc * 10 + (c - 48)) 0
    if v ≤ 255 then some v else none

/-- Go `net.ParseIP`, restricted to dotted-quad IPv4 inputs (the shape the
code under test feeds it). A parsed IPv4 address is returned in Go's
16-byte IPv4-in-IPv6 representation, exactly what `[]byte(ip)` of a
`net.ParseIP` result exposes; every non-dotted-quad input (in particular
the string `tcp`) yields `none`, matching `net.ParseIP` returning `nil`. -/
def parseIP (s : List Nat) : Option Bytes :=
  match splitByte 46 s with
  | [a, b, c, d] =>
    match parseOctet a, parseOctet b, parseOctet c, parseOctet d with
    | some x, some y, some z, some w =>
      some ([0, 0, 0, 0, 0, 0, 0, 0, 0, 0, 255, 255] ++ [x, y, z, w])
    | _, _, _, _ => none
  | _ => none

/-- Go `[]byte(ip)` where `ip : net.IP` may be `nil`: a `nil` IP converts
to a `nil` (empty) byte slice. -/
def ipBytes (ip : Option Bytes) : Bytes := ip.getD []

/-- The `net.Addr` interface surface used by the code: `Network()` (the
network name, `tcp` for TCP connections) and `String()` (the address
form, `host:port`). -/
structure Addr where
  network : Bytes
  str : Bytes
deriving DecidableEq, Repr

/-- The `p2p.Peer` surface used by the code: `ID().Bytes()` and
`RemoteAddr()`. -/
structure Peer where
  id : Bytes
  remoteAddr : Addr
deriving DecidableEq, Repr

/-- `IDMode` enables rate limiting based on peers public key identity
(`1 + iota`). -/
def IDMode : Int := 1

/-- `IPMode` enables rate limiting based on peer external ip address. -/
def IPMode : Int := 2

/-- `byIP` from `ratelimiter/peer.go` lines 18-22, exactly as written:
it reads `peer.RemoteAddr().Network()`, splits on a colon, and feeds the
first fragment to `net.ParseIP`. -/
def byIP (peer : Peer) : Bytes :=
  let addr := peer.remoteAddr.network
  let ip := parseIP ((splitByte 58 addr).headD [])
  ipBytes ip

/-- Modelled from the spec: the by-address extractor is supposed to return
the peer's observed source IP, address portion only, port stripped
(spec section 4.4). This reads the address string `RemoteAddr().String()`
(of the form `host:port`) instead of the network name. Used only to
compare against the source's `byIP`. -/
def byIP_spec (peer : Peer) : Bytes :=
  let addr := peer.remoteAddr.str
  let ip := parseIP ((splitByte 58 addr).headD [])
  ipBytes ip

/-- `byID` from `ratelimiter/peer.go`: the peer's public-key identity
bytes. -/
def byID (peer : Peer) : Bytes := peer.id

/-- `modeFunc`: function to obtain ID value from peer. -/
abbrev modeFunc := Peer → Bytes

/-- `selectFunc` from `ratelimiter/peer.go` lines 32-37: `byIP` when
`mode == IPMode`, `byID` otherwise. -/
def selectFunc (mode : Int) : modeFunc :=
  if mode = IPMode then byIP else byID

/-- `Config` (spec section 3): refill `Interval`, bucket `Capacity` and
refill `Quantum`, all non-negative. -/
structure Config where
  Interval : Nat
  Capacity : Nat
  Quantum : Nat
deriving DecidableEq, Repr

/-- The Go `Interface` implemented by rate limiters, as used by
`PeerRateLimiter`: four identity-keyed operations. Side effects of the
Go methods are modelled by explicit state passing over a state type
`σ`; errors are `Option String`. -/
structure Interface (σ : Type) where
  Create : Bytes → Config → σ → Option String × σ
  Remove : Bytes → Nat → σ → Option String × σ
  TakeAvailable : Bytes → Int → σ → Int × σ
  Available : Bytes → σ → Int × σ

/-- `PeerRateLimiter` from `ratelimiter/peer.go` lines 47-51: an identity
extractor plus a wrapped rate limiter, nothing else. The wrapped-limiter
type is a parameter, mirroring the Go interface value. -/
structure PeerRateLimiter (I : Type) where
  getID : modeFunc
  ratelimiter : I

/-- `NewPeerRateLimiter` from `ratelimiter/peer.go` lines 39-45. -/
def NewPeerRateLimiter {I : Type} (mode : Int) (ratelimiter : I) : PeerRateLimiter I :=
  { getID := selectFunc mode, ratelimiter := ratelimiter }

/-- `PeerRateLimiter.Create` (`ratelimiter/peer.go` lines 53-56). -/
def PeerRateLimiter.Create {σ : Type} (r : PeerRateLimiter (Interface σ))
    (peer : Peer) (cfg : Config) (st : σ) : Option String × σ :=
  r.ratelimiter.Create (r.getID peer) cfg st

/-- `PeerRateLimiter.Remove` (`ratelimiter/peer.go` lines 58-61). -/
def PeerRateLimiter.Remove {σ : Type} (r : PeerRateLimiter (Interface σ))
    (peer : Peer) (duration : Nat) (st : σ) : Option String × σ :=
  r.ratelimiter.Remove (r.getID peer) duration st

/-- `PeerRateLimiter.TakeAvailable` (`ratelimiter/peer.go` lines 63-66). -/
def PeerRateLimiter.TakeAvailable {σ : Type} (r : PeerRateLimiter (Interface σ))
    (peer : Peer) (count : Int) (st : σ) : Int × σ :=
  r.ratelimiter.TakeAvailable (r.getID peer) count st

/-- `PeerRateLimiter.Available` (`ratelimiter/peer.go` lines 68-71). -/
def PeerRateLimiter.Available {σ : Type} (r : PeerRateLimiter (Interface σ))
    (peer : Peer) (st : σ) : Int × σ :=
  r.ratelimiter.Available (r.getID peer) st

/-- Modelled from the spec: `DBInterface`, the handle to the one shared
underlying key-value database (spec sections 4.2 and 6); its contents
are irrelevant to the namespacing claims, so it is an opaque tag. -/
structure DBInterface where
  tag : Nat
deriving DecidableEq, Repr

/-- Modelled from the spec: the store produced by `WithPrefix` (source not
under the provided files): the shared database handle plus the
caller-chosen namespace prefix. -/
structure PrefixedStore where
  db : DBInterface
  pfx : Bytes
deriving DecidableEq, Repr

/-- Modelled from the spec: `WithPrefix(db, p)` wraps the database so that
every access is namespaced under `p` (spec section 4.2). -/
def WithPfx (db : DBInterface) (p : Bytes) : PrefixedStore :=
  { db := db, pfx := p }

/-- Modelled from the spec: the physical key a prefixed store uses for a
logical key `k` is `pfx ++ k`, the only isolation mechanism between two
limiter instances sharing one database. -/
def storeKey (s : PrefixedStore) (k : Bytes) : Bytes := s.pfx ++ k

/-- Modelled from the spec: the persisted rate limiter returned by
`NewPersisted`, identified by the namespaced store it owns. -/
structure Persisted where
  store : PrefixedStore
deriving DecidableEq, Repr

/-- Modelled from the spec: `NewPersisted` constructs the persisted rate
limiter over a namespaced store. -/
def NewPersisted (s : PrefixedStore) : Persisted :=
  { store := s }

/-- `Whisper` from `ratelimiter/peer.go` lines 73-77: the direction
wrapper bundling the ingress and egress peer rate limiters and the one
stored `Config`. -/
structure Whisper where
  Ingress : PeerRateLimiter Persisted
  Egress : PeerRateLimiter Persisted
  Config : Config

/-- `ForWhisper` from `ratelimiter/peer.go` lines 80-86, exactly as
written: one `mode`, one shared `db`, and a single `ingress` config;
the ingress limiter is namespaced under `"i"` (byte 105) and the egress
limiter under `"e"` (byte 101). -/
def ForWhisper (mode : Int) (db : DBInterface) (ingress : Config) : Whisper :=
  { Ingress := NewPeerRateLimiter mode (NewPersisted (WithPfx db [105]))
    Egress := NewPeerRateLimiter mode (NewPersisted (WithPfx db [101]))
    Config := ingress }

/-- Modelled from the spec: the token bucket of the Bucket Engine (spec
section 3), whose source is not under the provided files: capacity,
refill quantum, refill interval, current token balance, timestamp of the
last accounting update, and the optional blacklist-until timestamp
(`0` meaning not blacklisted). Timestamps and durations are `Nat`. -/
structure Bucket where
  capacity : Nat
  quantum : Nat
  interval : Nat
  tokens : Int
  lastRefill : Nat
  blacklistedUntil : Nat
deriving DecidableEq, Repr

/-- Modelled from the spec: the number of whole refill intervals elapsed
since the last accounting update,
`elapsedIntervals = floor((now - lastRefill) / interval)`. Truncated
`Nat` subtraction and division make a `now` in the past and a zero
`interval` both yield zero elapsed intervals. -/
def Bucket.elapsed (b : Bucket) (now : Nat) : Nat :=
  (now - b.lastRefill) / b.interval

/-- Modelled from the spec: `Refill(bucket, now)` (spec section 4.1): if
at least one interval elapsed, add `elapsedIntervals * quantum` tokens
capped at `capacity` and advance `lastRefill` by
`elapsedIntervals * interval`; otherwise a no-op. -/
def Bucket.refill (b : Bucket) (now : Nat) : Bucket :=
  if b.elapsed now = 0 then b
  else
    { b with
      tokens := min (b.capacity : Int) (b.tokens + (b.elapsed now * b.quantum : Nat))
      lastRefill := b.lastRefill + b.elapsed now * b.interval }

/-- Modelled from the spec: `TakeAvailable(bucket, amount, now)` (spec
section 4.1): the blacklist check precedes the refill and yields 0
without mutation; otherwise refill, then `taken = min(amount, tokens)`,
debit, and return `taken`. -/
def Bucket.takeAvailable (b : Bucket) (amount : Nat) (now : Nat) : Int × Bucket :=
  if now < b.blacklistedUntil then (0, b)
  else
    (min (amount : Int) (b.refill now).tokens,
     { b.refill now with
       tokens := (b.refill now).tokens - min (amount : Int) (b.refill now).tokens })

/-- Modelled from the spec: `Available(bucket, now)` (spec section 4.1):
blacklist check, then refill, then return the balance without debiting. -/
def Bucket.avail (b : Bucket) (now : Nat) : Int × Bucket :=
  if now < b.blacklistedUntil then (0, b)
  else ((b.refill now).tokens, b.refill now)

/-- The bucket balance invariant of spec section 8:
`0 ≤ tokens ≤ capacity`. -/
abbrev tokensInv (b : Bucket) : Prop :=
  0 ≤ b.tokens ∧ b.tokens ≤ (b.capacity : Int)

/-- One step of the Bucket Engine: a `TakeAvailable` or a refill, each
carrying its observation time. -/
inductive BucketOp where
  | take (amount : Nat) (now : Nat)
  | refillOp (now : Nat)
deriving DecidableEq, Repr

/-- Apply one Bucket Engine operation to a bucket, keeping the state. -/
def applyOp (b : Bucket) : BucketOp → Bucket
  | .take a n => (b.takeAvailable a n).2
  | .refillOp n => b.refill n

/-- Association-list lookup keyed by identity bytes. -/
def assocGet {β : Type} (k : Bytes) : List (Bytes × β) → Option β
  | [] => none
  | (k', v) :: rest => if k' = k then some v else assocGet k rest

/-- Association-list deletion keyed by identity bytes. -/
def assocDel {β : Type} (k : Bytes) : List (Bytes × β) → List (Bytes × β)
  | [] => []
  | (k', v) :: rest => if k' = k then assocDel k rest else (k', v) :: assocDel k rest

/-- Association-list update keyed by identity bytes. -/
def assocSet {β : Type} (k : Bytes) (v : β) (l : List (Bytes × β)) : List (Bytes × β) :=
  (k, v) :: assocDel k l

/-- Modelled from the spec: the state behind the identity-keyed rate
limiter facade (spec sections 4.3 and 6): each identity maps to one
bucket record, and blacklisted identities map to an expiry-timestamp
record. -/
structure RLState where
  buckets : List (Bytes × Bucket)
  blacklist : List (Bytes × Nat)
deriving DecidableEq, Repr

/-- Modelled from the spec: whether a blacklist entry for `id` is active
at `now` (spec section 3: active while `now < expiry`). -/
def blacklistActive (s : RLState) (id : Bytes) (now : Nat) : Bool :=
  match assocGet id s.blacklist with
  | some exp => decide (now < exp)
  | none => false

/-- Modelled from the spec: a freshly created bucket at full capacity
(spec section 4.3). -/
def newBucket (cfg : Config) (now : Nat) : Bucket :=
  { capacity := cfg.Capacity
    quantum := cfg.Quantum
    interval := cfg.Interval
    tokens := (cfg.Capacity : Int)
    lastRefill := now
    blacklistedUntil := 0 }

/-- Modelled from the spec: `Create(identity, config)` (spec section
4.3): a no-op while a blacklist entry is active, idempotent for an
already-created identity, otherwise installs a full-capacity bucket. -/
def RL.Create (id : Bytes) (cfg : Config) (now : Nat) (s : RLState) : RLState :=
  if blacklistActive s id now then s
  else
    match assocGet id s.buckets with
    | some _ => s
    | none => { s with buckets := assocSet id (newBucket cfg now) s.buckets }

/-- Modelled from the spec: `Remove(identity, duration)` (spec section
4.3): deletes the bucket; a positive duration additionally installs a
blacklist entry expiring at `now + duration`. -/
def RL.Remove (id : Bytes) (d : Nat) (now : Nat) (s : RLState) : RLState :=
  let s' := { s with buckets := assocDel id s.buckets }
  if 0 < d then { s' with blacklist := assocSet id (now + d) s'.blacklist } else s'

/-- Modelled from the spec: `TakeAvailable(identity, amount)` (spec
sections 3 and 4.3): 0 while blacklisted, otherwise loads (or lazily
creates with the instance default config) the bucket, applies the Bucket
Engine, persists the new bucket and returns the tokens taken. -/
def RL.TakeAvailable (defCfg : Config) (id : Bytes) (amount : Nat) (now : Nat)
    (s : RLState) : Int × RLState :=
  if blacklistActive s id now then (0, s)
  else
    let b := (assocGet id s.buckets).getD (newBucket defCfg now)
    let r := b.takeAvailable amount now
    (r.1, { s with buckets := assocSet id r.2 s.buckets })

/-- Modelled from the spec: `Available(identity)` (spec section 4.3):
same load path, Bucket Engine `Available`, persists the refill side
effect. -/
def RL.Available (defCfg : Config) (id : Bytes) (now : Nat) (s : RLState) : Int × RLState :=
  if blacklistActive s id now then (0, s)
  else
    let b := (assocGet id s.buckets).getD (newBucket defCfg now)
    let r := b.avail now
    (r.1, { s with buckets := assocSet id r.2 s.buckets })

/-- A facade call on one identity: `Create`, `TakeAvailable` or
`Available`, each carrying its observation time. -/
inductive RLOp where
  | create (cfg : Config) (now : Nat)
  | take (amount : Nat) (now : Nat)
  | avail (now : Nat)
deriving DecidableEq, Repr

/-- The observation time of a facade call. -/
def RLOp.time : RLOp → Nat
  | .create _ n => n
  | .take _ n => n
  | .avail n => n

/-- Run a sequence of facade calls against one identity, threading the
state. -/
def runOps (defCfg : Config) (id : Bytes) (s : RLState) : List RLOp → RLState
  | [] => s
  | op :: rest =>
    let s' :=
      match op with
      | .create cfg n => RL.Create id cfg n s
      | .take a n => (RL.TakeAvailable defCfg id a n s).2
      | .avail n => (RL.Available defCfg id n s).2
    runOps defCfg id s' rest

/-- A concrete `Interface` instance over state `Nat`, playing the role of
the generated mock that `peer_test.go` wires into `NewPeerRateLimiter`;
used to instantiate generic statements at a concrete wrapped limiter. -/
def unitInterface : Interface Nat where
  Create := fun _ _ st => (none, st)
  Remove := fun _ _ st => (none, st)
  TakeAvailable := fun _ count st => (count, st)
  Available := fun _ st => (0, st)

end Ratelimiter

namespace Libp2p

/-- The libp2p public-key surface relevant to identity derivation: the
Go type switch only distinguishes secp256k1 keys from everything else;
key material is abstracted to a `Nat`. -/
inductive PubKey where
  | secp256k1 (key : Nat)
  | ed25519 (key : Nat)
  | rsa (key : Nat)
deriving DecidableEq, Repr

/-- Whether a key is on the secp256k1 curve (the Go type assertion
`pubkey.(*crypto.Secp256k1PublicKey)`). -/
def isSecp : PubKey → Bool
  | .secp256k1 _ => true
  | _ => false

/-- go-ethereum `discover.PubkeyID`, an external library function
abstracted as the identity map on key material. -/
def PubkeyID (key : Nat) : Nat := key

/-- `PubKeyToNodeID` from the transport adapter: a secp256k1 key yields
the derived node ID, any other key is an error. -/
def PubKeyToNodeID (pubkey : PubKey) : Except String Nat :=
  match pubkey with
  | .secp256k1 k => .ok (PubkeyID k)
  | _ => .error ("public key is not on the secp256k1 curve")

/-- The `connection` struct of the transport adapter: node ID, the
`atomic.Value` holding the last observed activity time (`none` models a
value that was never stored, in which case the Go type cast fails), and
the staleness `period`. -/
structure connection where
  id : Nat
  received : Option Nat
  period : Nat
deriving DecidableEq, Repr

/-- `connection.Update`: store the most recent observed activity time. -/
def connection.Update (c : connection) (t : Nat) : connection :=
  { c with received := some t }

/-- `connection.IsFlaky`, exactly as written: `false` when the period is
zero; `false` when the stored value is not a time (the failed cast
branch); otherwise whether `time.Since(received) > period`. -/
def connection.IsFlaky (c : connection) (now : Nat) : Bool :=
  if c.period = 0 then false
  else
    match c.received with
    | none => false
    | some t => decide (now - t > c.period)

/-- The `net.Stream` surface used by `Handle`:
`s.Conn().RemotePublicKey()`. -/
structure Stream where
  remotePublicKey : PubKey
deriving DecidableEq, Repr

/-- The whisper `Stream` wrapper built by `Handle` (the `rlp` decoder
field is external library state and is omitted). -/
structure StreamW where
  s : Stream
  readTimeout : Nat
  writeTimeout : Nat
deriving DecidableEq, Repr

/-- `Handle` from the transport adapter, modelled up to the call of the
external `whisperv6` engine: a failed identity derivation returns the
error before anything else happens; otherwise the function builds the
connection (initialising the activity value with `Update(time.Time{})`,
the zero time) and invokes `w.HandleConnection` — the `.ok` payload is
exactly the pair of arguments passed to that call, so `.error` means the
engine (and hence the rate limiter) is never consulted. -/
def Handle (s : Stream) (period read write : Nat) :
    Except String (connection × StreamW) :=
  match PubKeyToNodeID s.remotePublicKey with
  | .error e => .error e
  | .ok id =>
    let conn := connection.Update { id := id, received := none, period := period } 0
    .ok (conn, { s := s, readTimeout := read, writeTimeout := write })

end Libp2p

/-! ## Theorems -/

namespace Ratelimiter

/-- Shared helper: a refill preserves the bucket balance invariant. -/
theorem refill_tokensInv (b : Bucket) (now : Nat) (h : tokensInv b) :
    tokensInv (b.refill now) := by
  obtain ⟨h0, hc⟩ := h
  simp only [Bucket.refill]
  split
  · exact ⟨h0, hc⟩
  · exact ⟨le_min (Int.natCast_nonneg _) (add_nonneg h0 (Int.natCast_nonneg _)),
      min_le_left _ _⟩

/-- Shared helper: `TakeAvailable` preserves the bucket balance
invariant. -/
theorem take_tokensInv (b : Bucket) (a now : Nat) (h : tokensInv b) :
    tokensInv (b.takeAvailable a now).2 := by
  simp only [Bucket.takeAvailable]
  split
  · exact h
  · obtain ⟨h0, hc⟩ := refill_tokensInv b now h
    have htk : 0 ≤ min (a : Int) (b.refill now).tokens :=
      le_min (Int.natCast_nonneg _) h0
    have hmin : min (a : Int) (b.refill now).tokens ≤ (b.refill now).tokens :=
      min_le_right _ _
    constructor <;> dsimp only <;> omega

/-- C2: for every bucket satisfying `0 ≤ tokens ≤ capacity` and every
sequence of `TakeAvailable` and refill operations, the balance still
satisfies `0 ≤ tokens ≤ capacity`: tokens never go negative and refills
never raise the balance above capacity. -/
theorem c2_bucket_invariant (ops : List BucketOp) (b : Bucket) (h : tokensInv b) :
    tokensInv (ops.foldl applyOp b) := by
  induction ops generalizing b with
  | nil => exact h
  | cons op rest ih =>
    simp only [List.foldl]
    refine ih _ ?_
    cases op with
    | take a n => exact take_tokensInv b a n h
    | refillOp n => exact refill_tokensInv b n h

/-- Witness for C2 at a concrete bucket and operation sequence. -/
theorem c2_bucket_invariant_witness :
    tokensInv { capacity := 10240, quantum := 1024, interval := 3600, tokens := 10240,
                lastRefill := 0, blacklistedUntil := 0 } ∧
    tokensInv (([BucketOp.take 5000 10, BucketOp.refillOp 7200,
                 BucketOp.take 999999 7300]).foldl applyOp
      { capacity := 10240, quantum := 1024, interval := 3600, tokens := 10240,
        lastRefill := 0, blacklistedUntil := 0 }) :=
  ⟨by decide, c2_bucket_invariant _ _ (by decide)⟩

/-- C1 (code bug): on a peer whose TCP remote address is
`192.0.2.1:30303`, the source's `byIP` reads `RemoteAddr().Network()`
(the string `tcp`), so `net.ParseIP` fails and `byIP` returns the empty
byte string instead of the peer's IP; the spec-intended extractor
(reading the address string) returns the 16-byte form of `192.0.2.1`.
The two never agree on this peer. -/
theorem c1_byIP_not_ip :
    byIP ⟨[1], ⟨[116, 99, 112],
        [49, 57, 50, 46, 48, 46, 50, 46, 49, 58, 51, 48, 51, 48, 51]⟩⟩ = [] ∧
    byIP_spec ⟨[1], ⟨[116, 99, 112],
        [49, 57, 50, 46, 48, 46, 50, 46, 49, 58, 51, 48, 51, 48, 51]⟩⟩
      = [0, 0, 0, 0, 0, 0, 0, 0, 0, 0, 255, 255, 192, 0, 2, 1] ∧
    byIP ⟨[1], ⟨[116, 99, 112],
        [49, 57, 50, 46, 48, 46, 50, 46, 49, 58, 51, 48, 51, 48, 51]⟩⟩ ≠
      byIP_spec ⟨[1], ⟨[116, 99, 112],
        [49, 57, 50, 46, 48, 46, 50, 46, 49, 58, 51, 48, 51, 48, 51]⟩⟩ := by
  decide

/-- C6: identity-extractor selection is a pure function of the mode flag:
`IPMode` selects `byIP`, and every other mode value selects `byID`
(in particular the named default `IDMode`). -/
theorem c6_selectFunc (m : Int) (hm : m ≠ IPMode) :
    selectFunc IPMode = byIP ∧ selectFunc m = byID ∧ selectFunc IDMode = byID :=
  ⟨by simp [selectFunc], by simp [selectFunc, hm], by simp [selectFunc, IDMode, IPMode]⟩

/-- Witness for C6 at the out-of-range mode value 5. -/
theorem c6_selectFunc_witness :
    selectFunc IPMode = byIP ∧ selectFunc 5 = byID ∧ selectFunc IDMode = byID :=
  c6_selectFunc 5 (by decide)

/-- C9 (code bug): the source `ForWhisper` accepts only a single
`Config`; evaluated at the configuration the repository's own test
passes, the wrapper stores that one config shared by both directions
(the test calls `ForWhisper(mode, db, rlconf, rlconf)` with independent
ingress and egress configs, which this signature cannot accept). -/
theorem c9_forWhisper_shared_config :
    (ForWhisper IDMode ⟨0⟩ ⟨3600000000000, 10240, 1024⟩).Config
      = ⟨3600000000000, 10240, 1024⟩ ∧
    (ForWhisper IDMode ⟨0⟩ ⟨3600000000000, 10240, 1024⟩).Ingress.ratelimiter.store.db
      = (ForWhisper IDMode ⟨0⟩ ⟨3600000000000, 10240, 1024⟩).Egress.ratelimiter.store.db :=
  ⟨rfl, rfl⟩

/-- Shared helper: looking up a key just set in an association list. -/
theorem assocGet_set_self {β : Type} (k : Bytes) (v : β) (l : List (Bytes × β)) :
    assocGet k (assocSet k v l) = some v := by
  simp [assocSet, assocGet]

/-- Shared helper: looking up a key just deleted from an association
list. -/
theorem assocGet_del_self {β : Type} (k : Bytes) (l : List (Bytes × β)) :
    assocGet k (assocDel k l) = none := by
  induction l with
  | nil => rfl
  | cons p rest ih =>
    obtain ⟨k', v⟩ := p
    by_cases hk : k' = k
    · simp [assocDel, hk, ih]
    · simp [assocDel, assocGet, hk, ih]

/-- Shared helper: `Remove` with a positive duration deletes the bucket
and installs the blacklist entry expiring at `now + d`. -/
theorem remove_state (id : Bytes) (d now : Nat) (s : RLState) (hd : 0 < d) :
    (RL.Remove id d now s).blacklist = assocSet id (now + d) s.blacklist ∧
    (RL.Remove id d now s).buckets = assocDel id s.buckets := by
  simp [RL.Remove, hd]

/-- Shared helper: while a blacklist entry for `id` is active, the three
facade calls on `id` return 0 and leave the state unchanged
(`Create` is a no-op). -/
theorem ops_noop (defCfg : Config) (id : Bytes) (expiry : Nat) (s : RLState)
    (hbl : assocGet id s.blacklist = some expiry) (a : Nat) (cfg : Config)
    (now : Nat) (hnow : now < expiry) :
    RL.TakeAvailable defCfg id a now s = (0, s) ∧
    RL.Create id cfg now s = s ∧
    RL.Available defCfg id now s = (0, s) := by
  have hact : blacklistActive s id now = true := by
    simp [blacklistActive, hbl, hnow]
  exact ⟨by simp [RL.TakeAvailable, hact], by simp [RL.Create, hact],
    by simp [RL.Available, hact]⟩

/-- Shared helper: a whole sequence of in-window facade calls on a
blacklisted identity leaves the state unchanged. -/
theorem runOps_noop (defCfg : Config) (id : Bytes) (expiry : Nat) (s : RLState)
    (hbl : assocGet id s.blacklist = some expiry) (ops : List RLOp)
    (hops : ∀ op ∈ ops, RLOp.time op < expiry) :
    runOps defCfg id s ops = s := by
  induction ops with
  | nil => rfl
  | cons op rest ih =>
    have hop : RLOp.time op < expiry := hops op (List.mem_cons_self _ _)
    have hrest : ∀ o ∈ rest, RLOp.time o < expiry :=
      fun o ho => hops o (List.mem_cons_of_mem _ ho)
    cases op with
    | create cfg n =>
      simp only [runOps]
      rw [(ops_noop defCfg id expiry s hbl 0 cfg n hop).2.1]
      exact ih hrest
    | take a n =>
      simp only [runOps]
      rw [(ops_noop defCfg id expiry s hbl a ⟨0, 0, 0⟩ n hop).1]
      exact ih hrest
    | avail n =>
      simp only [runOps]
      rw [(ops_noop defCfg id expiry s hbl 0 ⟨0, 0, 0⟩ n hop).2.2]
      exact ih hrest

/-- C3: after `Remove(id, d)` with `d > 0`, every `TakeAvailable` on
`id` before the expiry `now₀ + d` returns 0 and leaves the state
unchanged, `Create` before the expiry is a no-op, a whole sequence of
in-window calls on `id` leaves the state unchanged, and a `Create` at or
after the expiry installs a full-capacity bucket
(`tokens = cfg.Capacity`). -/
theorem c3_blacklist (defCfg cfg c : Config) (s : RLState) (id : Bytes)
    (d now₀ a now now₁ : Nat) (ops : List RLOp)
    (hd : 0 < d) (hnow : now < now₀ + d)
    (hops : ∀ op ∈ ops, RLOp.time op < now₀ + d) (hnow₁ : now₀ + d ≤ now₁) :
    RL.TakeAvailable defCfg id a now (RL.Remove id d now₀ s)
      = (0, RL.Remove id d now₀ s) ∧
    RL.Create id c now (RL.Remove id d now₀ s) = RL.Remove id d now₀ s ∧
    runOps defCfg id (RL.Remove id d now₀ s) ops = RL.Remove id d now₀ s ∧
    assocGet id (RL.Create id cfg now₁
        (runOps defCfg id (RL.Remove id d now₀ s) ops)).buckets
      = some (newBucket cfg now₁) ∧
    (newBucket cfg now₁).tokens = (cfg.Capacity : Int) := by
  have hbl : assocGet id (RL.Remove id d now₀ s).blacklist = some (now₀ + d) := by
    rw [(remove_state id d now₀ s hd).1]
    exact assocGet_set_self _ _ _
  have hbk : assocGet id (RL.Remove id d now₀ s).buckets = none := by
    rw [(remove_state id d now₀ s hd).2]
    exact assocGet_del_self _ _
  have hrun := runOps_noop defCfg id (now₀ + d) _ hbl ops hops
  refine ⟨(ops_noop defCfg id _ _ hbl a c now hnow).1,
    (ops_noop defCfg id _ _ hbl a c now hnow).2.1, hrun, ?_, rfl⟩
  rw [hrun]
  have hinact : blacklistActive (RL.Remove id d now₀ s) id now₁ = false := by
    simp only [blacklistActive, hbl]
    simp
    omega
  simp [RL.Create, hinact, hbk, assocGet_set_self]

/-- Witness for C3 at a concrete identity, blacklist duration and call
sequence. -/
theorem c3_blacklist_witness :
    RL.TakeAvailable ⟨3600, 10240, 1024⟩ [1] 100 10 (RL.Remove [1] 3600 0 ⟨[], []⟩)
      = (0, RL.Remove [1] 3600 0 ⟨[], []⟩) ∧
    RL.Create [1] ⟨60, 5, 1⟩ 10 (RL.Remove [1] 3600 0 ⟨[], []⟩)
      = RL.Remove [1] 3600 0 ⟨[], []⟩ ∧
    runOps ⟨3600, 10240, 1024⟩ [1] (RL.Remove [1] 3600 0 ⟨[], []⟩)
        [RLOp.take 5 1, RLOp.avail 3] = RL.Remove [1] 3600 0 ⟨[], []⟩ ∧
    assocGet [1] (RL.Create [1] ⟨60, 5, 1⟩ 4000 (runOps ⟨3600, 10240, 1024⟩ [1]
        (RL.Remove [1] 3600 0 ⟨[], []⟩) [RLOp.take 5 1, RLOp.avail 3])).buckets
      = some (newBucket ⟨60, 5, 1⟩ 4000) ∧
    (newBucket ⟨60, 5, 1⟩ 4000).tokens = (((⟨60, 5, 1⟩ : Config)).Capacity : Int) :=
  c3_blacklist ⟨3600, 10240, 1024⟩ ⟨60, 5, 1⟩ ⟨60, 5, 1⟩ ⟨[], []⟩ [1] 3600 0 100 10 4000
    [RLOp.take 5 1, RLOp.avail 3] (by decide) (by decide) (by decide) (by decide)

/-- C5: every `PeerRateLimiter` operation returns exactly what the
wrapped limiter's same-named operation returns on the identity bytes the
configured extractor produces, and a `PeerRateLimiter` is fully
determined by its extractor and wrapped limiter (no further state). -/
theorem c5_delegation {σ : Type} (r : PeerRateLimiter (Interface σ)) (peer : Peer)
    (cfg : Config) (dur : Nat) (count : Int) (st : σ) :
    r.Create peer cfg st = r.ratelimiter.Create (r.getID peer) cfg st ∧
    r.Remove peer dur st = r.ratelimiter.Remove (r.getID peer) dur st ∧
    r.TakeAvailable peer count st = r.ratelimiter.TakeAvailable (r.getID peer) count st ∧
    r.Available peer st = r.ratelimiter.Available (r.getID peer) st ∧
    ∀ r' : PeerRateLimiter (Interface σ),
      r.getID = r'.getID → r.ratelimiter = r'.ratelimiter → r = r' := by
  refine ⟨rfl, rfl, rfl, rfl, ?_⟩
  intro r' h1 h2
  cases r
  cases r'
  simp only [PeerRateLimiter.mk.injEq]
  exact ⟨h1, h2⟩

/-- Witness for C5 at a concrete peer and the mock wrapped limiter. -/
theorem c5_delegation_witness :
    PeerRateLimiter.Create (NewPeerRateLimiter 1 unitInterface)
        ⟨[1], ⟨[116, 99, 112], []⟩⟩ ⟨0, 0, 0⟩ 7
      = (NewPeerRateLimiter 1 unitInterface).ratelimiter.Create
          ((NewPeerRateLimiter 1 unitInterface).getID ⟨[1], ⟨[116, 99, 112], []⟩⟩)
          ⟨0, 0, 0⟩ 7 ∧
    PeerRateLimiter.Remove (NewPeerRateLimiter 1 unitInterface)
        ⟨[1], ⟨[116, 99, 112], []⟩⟩ 3 7
      = (NewPeerRateLimiter 1 unitInterface).ratelimiter.Remove
          ((NewPeerRateLimiter 1 unitInterface).getID ⟨[1], ⟨[116, 99, 112], []⟩⟩) 3 7 ∧
    PeerRateLimiter.TakeAvailable (NewPeerRateLimiter 1 unitInterface)
        ⟨[1], ⟨[116, 99, 112], []⟩⟩ 5 7
      = (NewPeerRateLimiter 1 unitInterface).ratelimiter.TakeAvailable
          ((NewPeerRateLimiter 1 unitInterface).getID ⟨[1], ⟨[116, 99, 112], []⟩⟩) 5 7 ∧
    PeerRateLimiter.Available (NewPeerRateLimiter 1 unitInterface)
        ⟨[1], ⟨[116, 99, 112], []⟩⟩ 7
      = (NewPeerRateLimiter 1 unitInterface).ratelimiter.Available
          ((NewPeerRateLimiter 1 unitInterface).getID ⟨[1], ⟨[116, 99, 112], []⟩⟩) 7 ∧
    NewPeerRateLimiter 1 unitInterface = NewPeerRateLimiter 1 unitInterface := by
  have h := c5_delegation (NewPeerRateLimiter 1 unitInterface)
    ⟨[1], ⟨[116, 99, 112], []⟩⟩ ⟨0, 0, 0⟩ 3 5 7
  exact ⟨h.1, h.2.1, h.2.2.1, h.2.2.2.1, h.2.2.2.2 _ rfl rfl⟩

/-- C4: `ForWhisper` builds a direction wrapper whose ingress limiter is
the persisted limiter over the shared database namespaced by `"i"`
(byte 105) and whose egress limiter is the one namespaced by `"e"`
(byte 101); the two limiters are distinct, and no physical ingress key
can ever equal a physical egress key. -/
theorem c4_forWhisper (mode : Int) (db : DBInterface) (cfg : Config) :
    (ForWhisper mode db cfg).Ingress.ratelimiter = NewPersisted (WithPfx db [105]) ∧
    (ForWhisper mode db cfg).Egress.ratelimiter = NewPersisted (WithPfx db [101]) ∧
    (ForWhisper mode db cfg).Ingress.ratelimiter.store.db = db ∧
    (ForWhisper mode db cfg).Egress.ratelimiter.store.db = db ∧
    (ForWhisper mode db cfg).Ingress.ratelimiter
      ≠ (ForWhisper mode db cfg).Egress.ratelimiter ∧
    ∀ k1 k2 : Bytes,
      storeKey (ForWhisper mode db cfg).Ingress.ratelimiter.store k1
        ≠ storeKey (ForWhisper mode db cfg).Egress.ratelimiter.store k2 := by
  refine ⟨rfl, rfl, rfl, rfl, ?_, ?_⟩
  · simp [ForWhisper, NewPeerRateLimiter, NewPersisted, WithPfx]
  · intro k1 k2 h
    simp [ForWhisper, NewPeerRateLimiter, NewPersisted, WithPfx, storeKey] at h

/-- Witness for C4 at a concrete database handle, config and key pair. -/
theorem c4_forWhisper_witness :
    (ForWhisper 2 ⟨7⟩ ⟨3600, 10240, 1024⟩).Ingress.ratelimiter
      = NewPersisted (WithPfx ⟨7⟩ [105]) ∧
    (ForWhisper 2 ⟨7⟩ ⟨3600, 10240, 1024⟩).Egress.ratelimiter
      = NewPersisted (WithPfx ⟨7⟩ [101]) ∧
    (ForWhisper 2 ⟨7⟩ ⟨3600, 10240, 1024⟩).Ingress.ratelimiter
      ≠ (ForWhisper 2 ⟨7⟩ ⟨3600, 10240, 1024⟩).Egress.ratelimiter ∧
    storeKey (ForWhisper 2 ⟨7⟩ ⟨3600, 10240, 1024⟩).Ingress.ratelimiter.store [1, 2]
      ≠ storeKey (ForWhisper 2 ⟨7⟩ ⟨3600, 10240, 1024⟩).Egress.ratelimiter.store [1, 2] := by
  have h := c4_forWhisper 2 ⟨7⟩ ⟨3600, 10240, 1024⟩
  exact ⟨h.1, h.2.1, h.2.2.2.2.1, h.2.2.2.2.2 [1, 2] [1, 2]⟩

end Ratelimiter

namespace Libp2p

/-- C8: for a connection holding a last-observed timestamp, `IsFlaky`
returns true exactly when `now - lastObserved` exceeds the staleness
period, and always returns false when the period is configured as
zero. -/
theorem c8_isFlaky (c : connection) (t now : Nat) (hr : c.received = some t) :
    (c.period ≠ 0 → (c.IsFlaky now = true ↔ now - t > c.period)) ∧
    (c.period = 0 → c.IsFlaky now = false) := by
  constructor
  · intro hp
    simp [connection.IsFlaky, hp, hr]
  · intro hp
    simp [connection.IsFlaky, hp]

/-- Witness for C8 at concrete connections with nonzero and zero
periods. -/
theorem c8_isFlaky_witness :
    (connection.IsFlaky ⟨1, some 5, 10⟩ 100 = true ↔ 100 - 5 > 10) ∧
    connection.IsFlaky ⟨1, some 5, 0⟩ 100 = false :=
  ⟨(c8_isFlaky ⟨1, some 5, 10⟩ 5 100 rfl).1 (by decide),
   (c8_isFlaky ⟨1, some 5, 0⟩ 5 100 rfl).2 rfl⟩

/-- C7: a stream whose remote public key is not secp256k1 makes `Handle`
return the derivation error, so the engine (and the rate limiter behind
it) is never invoked; a secp256k1 key makes identity derivation succeed
and `Handle` proceed to `HandleConnection` with the derived
connection. -/
theorem c7_handle (s : Stream) (period read write : Nat) :
    (isSecp s.remotePublicKey = false →
      Handle s period read write
        = .error ("public key is not on the secp256k1 curve")) ∧
    (∀ k, s.remotePublicKey = PubKey.secp256k1 k →
      PubKeyToNodeID s.remotePublicKey = .ok (PubkeyID k) ∧
      Handle s period read write
        = .ok (connection.Update { id := PubkeyID k, received := none, period := period } 0,
               { s := s, readTimeout := read, writeTimeout := write })) := by
  constructor
  · intro h
    cases hpk : s.remotePublicKey with
    | secp256k1 k =>
      rw [hpk] at h
      simp [isSecp] at h
    | ed25519 k => simp [Handle, PubKeyToNodeID, hpk]
    | rsa k => simp [Handle, PubKeyToNodeID, hpk]
  · intro k hk
    constructor
    · simp [PubKeyToNodeID, hk]
    · simp [Handle, PubKeyToNodeID, hk]

/-- Witness for C7 at a concrete rejected stream (ed25519 key) and a
concrete accepted stream (secp256k1 key). -/
theorem c7_handle_witness :
    Handle ⟨PubKey.ed25519 3⟩ 10 1 2
      = .error ("public key is not on the secp256k1 curve") ∧
    Handle ⟨PubKey.secp256k1 4⟩ 10 1 2
      = .ok (⟨4, some 0, 10⟩, ⟨⟨PubKey.secp256k1 4⟩, 1, 2⟩) :=
  ⟨(c7_handle ⟨PubKey.ed25519 3⟩ 10 1 2).1 rfl,
   ((c7_handle ⟨PubKey.secp256k1 4⟩ 10 1 2).2 4 rfl).2⟩

/-- C10: a connection created by `Handle` has its last-observed value
initialised with the zero time, so with a nonzero staleness period
(smaller than the current clock reading, as any real clock reading is)
`IsFlaky` is true on the fresh connection, and becomes false once
`Update` records a timestamp within the staleness period of `now`. -/
theorem c10_fresh_flaky (s : Stream) (period read write now k : Nat)
    (hk : s.remotePublicKey = PubKey.secp256k1 k) (hp : period ≠ 0)
    (hnow : period < now) :
    Handle s period read write
      = .ok ({ id := PubkeyID k, received := some 0, period := period },
             { s := s, readTimeout := read, writeTimeout := write }) ∧
    connection.IsFlaky { id := PubkeyID k, received := some 0, period := period } now
      = true ∧
    ∀ t, now - t ≤ period →
      connection.IsFlaky
        (connection.Update
          { id := PubkeyID k, received := some 0, period := period } t) now = false := by
  refine ⟨?_, ?_, ?_⟩
  · simp [Handle, PubKeyToNodeID, hk, connection.Update]
  · simp only [connection.IsFlaky, hp, if_false]
    simp
    omega
  · intro t ht
    simp only [connection.IsFlaky, connection.Update, hp, if_false]
    simp
    omega

/-- Witness for C10 at a concrete stream, period 10 and clock reading
100. -/
theorem c10_fresh_flaky_witness :
    Handle ⟨PubKey.secp256k1 9⟩ 10 1 2
      = .ok (⟨9, some 0, 10⟩, ⟨⟨PubKey.secp256k1 9⟩, 1, 2⟩) ∧
    connection.IsFlaky ⟨9, some 0, 10⟩ 100 = true ∧
    connection.IsFlaky ⟨9, some 95, 10⟩ 100 = false := by
  have h := c10_fresh_flaky ⟨PubKey.secp256k1 9⟩ 10 1 2 100 9 rfl (by decide) (by decide)
  exact ⟨h.1, h.2.1, h.2.2 95 (by decide)⟩

end Libp2p
